import Mathlib

/-!
Verification of the python-odata client core (query builder/executor,
entity mutation state, transport error parsing) against its specification.

The development shallowly embeds the three source modules:
  * odata/query.py      - Query: option rendering, builders, pagination, one()
  * odata/state.py      - EntityState: dictionary access, insert/update payloads
  * odata/connection.py - ODataConnection: headers, error-body parsing

Python dictionaries are modelled as association lists with unique keys kept
in insertion order; JSON values as the inductive `JVal` (with `JVal.null`
doubling as Python's None, as it does on the wire).
-/

set_option maxRecDepth 4000

namespace PyOData

/-- JSON-ish runtime values: the payloads the client reads and writes. -/
inductive JVal : Type where
  | null
  | bool (b : Bool)
  | num (n : Int)
  | str (s : String)
  | arr (xs : List JVal)
  | obj (kvs : List (String × JVal))

/-- Python `value is None` test. -/
def JVal.isNull : JVal → Bool
  | .null => true
  | _ => false

/-- Lookup in a Python dict modelled as an association list (first match). -/
def dictGet {β : Type} : List (String × β) → String → Option β
  | [], _ => none
  | (k', v) :: rest, k => if k' = k then some v else dictGet rest k

/-- Python `key in d`. -/
def dictHasKey {β : Type} (d : List (String × β)) (k : String) : Bool :=
  (dictGet d k).isSome

/-- Python `d[k] = v`: replaces the value in place if the key exists
(dict keys are unique, so replacing the first occurrence is the general
case), otherwise appends the new entry; insertion order is preserved. -/
def dictSet {β : Type} : List (String × β) → String → β → List (String × β)
  | [], k, v => [(k, v)]
  | (k', v') :: rest, k, v =>
    if k' = k then (k, v) :: rest else (k', v') :: dictSet rest k v

/-- Python `d.pop(k, None)`: removes the entry with the given key. -/
def dictPop {β : Type} : List (String × β) → String → List (String × β)
  | [], _ => []
  | (k', v) :: rest, k =>
    if k' = k then dictPop rest k else (k', v) :: dictPop rest k

/-- Python `d.update(other)`: sets every entry of `other` in order. -/
def dictUpdate {β : Type} (d other : List (String × β)) : List (String × β) :=
  other.foldl (fun acc kv => dictSet acc kv.1 kv.2) d

/-- The keys of a dict, in order. -/
def dictKeys {β : Type} (d : List (String × β)) : List String :=
  d.map Prod.fst

/-- Python `d.get(k)` on a dict of JSON values: returns None both when the
key is absent and when the stored value is None itself; both cases are
Option.none here, with `JVal.null` encoding an explicit None value. -/
def pyGetOpt (d : List (String × JVal)) (k : String) : Option JVal :=
  match dictGet d k with
  | some v => if v.isNull then none else some v
  | none => none

/-! ## odata/state.py : EntityState dictionary access (claims C6 and C10) -/

/-- EntityState, from odata/state.py. Only the plain-data fields are
modelled; the `entity`, `connection` and `nav_cache` fields are object
references whose contents the verified claims do not touch. -/
structure EntityState where
  data : List (String × JVal)
  dirty : List String
  etag : Option JVal
  parent_navigation_url : Option String

/-- EntityState.update (state.py lines 51-53):
`self.data.update(other); self.etag = other.get("@odata.etag")`. -/
def EntityState.update (s : EntityState) (other : List (String × JVal)) :
    EntityState :=
  { s with
    data := dictUpdate s.data other
    etag := pyGetOpt other "@odata.etag" }

/-- Outcome of a Python call: a value or a raised exception. -/
inductive PyRes (α : Type) where
  | ok (v : α)
  | exn (msg : String)

/-- The built-in `dict.get` method as invoked at a call site: it accepts one
or two positional arguments and, being a C builtin without keyword support,
raises TypeError as soon as any keyword argument is supplied. -/
def pyDictGet (d : List (String × JVal)) (posArgs : List JVal)
    (kwArgs : List (String × JVal)) : PyRes JVal :=
  match kwArgs with
  | _ :: _ => .exn "TypeError: get() takes no keyword arguments"
  | [] =>
    match posArgs with
    | [JVal.str k] => .ok ((dictGet d k).getD JVal.null)
    | [JVal.str k, dflt] => .ok ((dictGet d k).getD dflt)
    | _ => .exn "TypeError"

/-- EntityState.get (state.py lines 48-49):
`return self.data.get(key, default=default)` - the default is passed as a
keyword argument. -/
def EntityState.get (s : EntityState) (key : String) (default : JVal) :
    PyRes JVal :=
  pyDictGet s.data [JVal.str key] [("default", default)]

/-! ## odata/query.py : compound expand rewriting (claim C8) -/

/-- Python `str.split` with a one-character separator: no collapsing of
adjacent separators, the empty string splits to `[""]`. -/
def splitChar (sep : Char) : List Char → List (List Char)
  | [] => [[]]
  | c :: rest =>
    match splitChar sep rest with
    | [] => [[]]
    | cur :: others =>
      if c = sep then [] :: cur :: others else (c :: cur) :: others

/-- Query.__compound_expand_name (query.py lines 217-227): when compound
expand is enabled, `A/B/C` is folded from the right into
`A($expand=B($expand=C))`; otherwise the name passes through unchanged. -/
def compoundExpandName (compound : Bool) (name : String) : String :=
  if compound then
    let s := (splitChar '/' name.toList).map (fun cs => String.mk cs)
    s.reverse.foldl
      (fun final value =>
        if final = "" then value else value ++ "($expand=" ++ final ++ ")")
      ""
  else name

/-! ## odata/query.py : pagination (claim C1) and one() (claim C4) -/

/-- One JSON body answered to a GET on the collection URL: an optional
`value` array of rows and an optional `@odata.nextLink`. -/
structure RespBody (Row : Type) where
  value : Option (List Row)
  nextLink : Option String

/-- Query.__iter__ (query.py lines 83-102). The connection is modelled as
the list of bodies it will answer, in order; the result pairs the yielded
entities with the number of GET requests issued, and is `none` when the
connection cannot answer a request. `mat` stands for
`_create_model ∘ _prepare_raw_data` applied to a row, `matSingle` for the
same materialization applied to a whole singleton body. `topSet` is
whether the rendered options carry a `$top` key; after following a next
link the options are cleared, so the recursive call passes `false`. -/
def iterQuery {Row Ent : Type} (mat : Row → Ent) (matSingle : RespBody Row → Ent)
    (singleton : Bool) : Bool → List (RespBody Row) → Option (List Ent × Nat)
  | _, [] => none
  | topSet, r :: rest =>
    match r.value with
    | some rows =>
      if r.nextLink.isSome && !topSet then
        match iterQuery mat matSingle singleton false rest with
        | some p => some (rows.map mat ++ p.1, p.2 + 1)
        | none => none
      else
        some (rows.map mat, 1)
    | none =>
      if singleton then some ([matSingle r], 1) else some ([], 1)

/-- Outcome of Query.one(). -/
inductive OneOutcome (Ent : Type) where
  | ok (e : Ent)
  | noResults
  | multipleResults
  | connectionFailed

/-- Query.one (query.py lines 325-343): saves the current `$top`, forces
`$top = 1`, drains via all(), restores the saved `$top`, then dispatches on
the number of results. The second component is the `$top` option after the
call (left at 1 only when the drain itself raised). -/
def Query.one {Row Ent : Type} (mat : Row → Ent) (matSingle : RespBody Row → Ent)
    (singleton : Bool) (top0 : Option Int) (responses : List (RespBody Row)) :
    OneOutcome Ent × Option Int :=
  let oldlimit := top0
  let topDuring : Option Int := some 1
  match iterQuery mat matSingle singleton topDuring.isSome responses with
  | none => (.connectionFailed, topDuring)
  | some (data, _) =>
    match data with
    | [] => (.noResults, oldlimit)
    | [x] => (.ok x, oldlimit)
    | _ :: _ :: _ => (.multipleResults, oldlimit)

/-! ## odata/query.py : builder immutability (claim C2)

Python lists are mutable objects aliased by reference, so the immutability
claim is about the heap: the option map of a query holds *references* to
list cells, `_new_query` copies the cells (`[:]`), and the builders append
to the fresh cells only. The heap of list cells is modelled explicitly. -/

/-- The heap of Python list objects reachable from query option maps.
Cell contents are the rendered strings the options hold. -/
structure Store where
  cells : List (List String)

/-- Indexing into the heap (out-of-range reads answer the empty list; the
theorems only ever read valid references). -/
def cellGet : List (List String) → Nat → List String
  | [], _ => []
  | c :: _, 0 => c
  | _ :: rest, n + 1 => cellGet rest n

/-- Replacing one heap cell. -/
def cellSet : List (List String) → Nat → List String → List (List String)
  | [], _, _ => []
  | _ :: rest, 0, v => v :: rest
  | c :: rest, n + 1, v => c :: cellSet rest n v

def Store.read (s : Store) (r : Nat) : List String := cellGet s.cells r

def Store.write (s : Store) (r : Nat) (v : List String) : Store :=
  ⟨cellSet s.cells r v⟩

/-- Allocating a fresh list object (e.g. the result of `list[:]`). -/
def Store.alloc (s : Store) (v : List String) : Store × Nat :=
  (⟨s.cells ++ [v]⟩, s.cells.length)

/-- Python `list.append` on the list referenced by `r`. -/
def Store.appendItem (s : Store) (r : Nat) (x : String) : Store :=
  s.write r (s.read r ++ [x])

/-- A Query's option map (query.py): the scalar options hold values, the
sequence options hold references to list cells in the store. -/
structure QueryObj where
  top : Option Int
  skip : Option Int
  applyOpt : Option String
  selectRef : Nat
  filterRef : Nat
  expandRef : Nat
  orderbyRef : Nat

/-- Every sequence reference of the query points into the store, as is
always the case for real Python objects. -/
def QueryObj.Valid (s : Store) (q : QueryObj) : Prop :=
  q.selectRef < s.cells.length ∧ q.filterRef < s.cells.length ∧
  q.expandRef < s.cells.length ∧ q.orderbyRef < s.cells.length

/-- The observable option map of a query: scalar values plus the contents
of the four referenced sequence cells. -/
def QueryObj.readOpts (s : Store) (q : QueryObj) :
    Option Int × Option Int × Option String ×
      List String × List String × List String × List String :=
  (q.top, q.skip, q.applyOpt, s.read q.selectRef, s.read q.filterRef,
    s.read q.expandRef, s.read q.orderbyRef)

/-- Query._new_query (query.py lines 169-184): copies the scalar options by
value and each sequence option into a freshly allocated cell (`[:]`). -/
def Query.newQuery (s : Store) (q : QueryObj) : Store × QueryObj :=
  let sel := s.read q.selectRef
  let fil := s.read q.filterRef
  let expd := s.read q.expandRef
  let ord := s.read q.orderbyRef
  let a1 := s.alloc sel
  let a2 := a1.1.alloc fil
  let a3 := a2.1.alloc expd
  let a4 := a3.1.alloc ord
  (a4.1, ⟨q.top, q.skip, q.applyOpt, a1.2, a2.2, a3.2, a4.2⟩)

/-- Query.select (query.py lines 192-202): derives a new query and appends
each property name to its `$select` cell. -/
def Query.select (s : Store) (q : QueryObj) (names : List String) :
    Store × QueryObj :=
  let sq := Query.newQuery s q
  (names.foldl (fun st n => st.appendItem sq.2.selectRef n) sq.1, sq.2)

/-- Query.filter (query.py lines 204-215): derives a new query and appends
the rendered predicate to its `$filter` cell. -/
def Query.filter (s : Store) (q : QueryObj) (value : String) :
    Store × QueryObj :=
  let sq := Query.newQuery s q
  (sq.1.appendItem sq.2.filterRef value, sq.2)

/-- Query.expand (query.py lines 229-241): derives a new query and appends
each (possibly compound-rewritten) expand path to its `$expand` cell. -/
def Query.expand (s : Store) (q : QueryObj) (compound : Bool)
    (names : List String) : Store × QueryObj :=
  let sq := Query.newQuery s q
  (names.foldl
      (fun st n => st.appendItem sq.2.expandRef (compoundExpandName compound n))
      sq.1,
    sq.2)

/-- Query.order_by (query.py lines 243-253): derives a new query and
extends its `$orderby` cell with the rendered orderings. -/
def Query.order_by (s : Store) (q : QueryObj) (values : List String) :
    Store × QueryObj :=
  let sq := Query.newQuery s q
  (values.foldl (fun st n => st.appendItem sq.2.orderbyRef n) sq.1, sq.2)

/-- Query.limit (query.py lines 255-264): derives a new query and sets its
`$top` scalar. -/
def Query.limit (s : Store) (q : QueryObj) (value : Int) : Store × QueryObj :=
  let sq := Query.newQuery s q
  (sq.1, { sq.2 with top := some value })

/-- Query.offset (query.py lines 266-275): derives a new query and sets its
`$skip` scalar. -/
def Query.offset (s : Store) (q : QueryObj) (value : Int) : Store × QueryObj :=
  let sq := Query.newQuery s q
  (sq.1, { sq.2 with skip := some value })

/-- Query.apply (query.py lines 277-286): derives a new query and sets its
`$apply` scalar. -/
def Query.applyOption (s : Store) (q : QueryObj) (value : String) :
    Store × QueryObj :=
  let sq := Query.newQuery s q
  (sq.1, { sq.2 with applyOpt := some value })

/-! ## odata/state.py : insert payload construction (claims C3 and C5) -/

/-- Server capability flags (odata/flags.py, consumed by EntityState).
The field feeding the `@odata.type` payload entry is named
`provide_odata_type_annotation` in the source. -/
structure ODataServerFlags where
  provide_odata_type_tag : Bool
  skip_null_properties : Bool
  odata_bind_requires_slash : Bool

/-- A scalar property descriptor (odata/property.py, external interface):
the three attributes EntityState consults. -/
structure PropDesc where
  name : String
  primary_key : Bool
  is_computed_value : Bool

mutual

/-- An entity instance together with the declarative metadata EntityState
reads from it: `__odata_type__`, `__odata_collection__`, the scalar
property descriptors, the raw data dict, and the navigation properties
with their currently related objects (`getattr(entity, prop_name)`). -/
inductive Entity : Type where
  | mk (odata_type : String) (odata_collection : Option String)
      (props : List PropDesc) (data : List (String × JVal))
      (navs : List NavEntry)

/-- One navigation property of an entity: its wire name, its optional
foreign-key field name, and the related value. -/
inductive NavEntry : Type where
  | mk (name : String) (foreign_key : Option String) (val : NavVal)

/-- The related value of a navigation property; the `coll` constructor
corresponds to `prop.is_collection`. -/
inductive NavVal : Type where
  | noRelated
  | single (e : Entity)
  | coll (es : List Entity)

end

/-- The primary-key (name, escaped value) pairs present in the data dict
(EntityState.id, state.py lines 144-147). `esc` stands for the external
`str(prop.escape_value(value))` wire-format rendering, keyed by property
name. -/
def pkIdPairs (esc : String → JVal → String) (props : List PropDesc)
    (data : List (String × JVal)) : List (String × String) :=
  (props.filter (fun p => p.primary_key)).filterMap
    (fun p => (dictGet data p.name).map (fun v => (p.name, esc p.name v)))

/-- EntityState.id (state.py lines 136-156): `Collection(value)` for a
single present key, `Collection(k1=v1,...)` for several, absent when the
collection name is unset or no key value is present. The produced string
is never empty, so Python truthiness of the id coincides with `isSome`. -/
def Entity.stateId (esc : String → JVal → String) : Entity → Option String
  | .mk _ ocoll props data _ =>
    match ocoll with
    | none => none
    | some entity_name =>
      match pkIdPairs esc props data with
      | [] => none
      | [(_, key_value)] => some (entity_name ++ "(" ++ key_value ++ ")")
      | ids =>
        some (entity_name ++ "(" ++
          String.intercalate "," (ids.map (fun p => p.1 ++ "=" ++ p.2)) ++ ")")

/-- EntityState._format_odata_bind_key (state.py lines 197-200). -/
def formatODataBindKey (prop_name : String) (require_slash : Bool) : String :=
  let key := prop_name ++ "@odata.bind"
  if require_slash then "/" ++ key else key

/-- The foreign-key pop opening each navigation step of _clean_new_entity
(state.py lines 256-257): `if prop.foreign_key: insert_data.pop(...)`,
with Python truthiness skipping an empty key name. -/
def popForeignKey (fk : Option String) (d : List (String × JVal)) :
    List (String × JVal) :=
  match fk with
  | some f => if f = "" then d else dictPop d f
  | none => d

/-- The scalar part of _clean_new_entity (state.py lines 243-247): every
non-computed property is written into the payload with its current data
value; `es[prop.name]` raises KeyError (here: `none`) when the data dict
lacks the property. -/
def insertScalarsGo (data : List (String × JVal)) :
    List PropDesc → List (String × JVal) → Option (List (String × JVal))
  | [], d => some d
  | p :: rest, d =>
    if p.is_computed_value then insertScalarsGo data rest d
    else
      match dictGet data p.name with
      | some v => insertScalarsGo data rest (dictSet d p.name v)
      | none => none

/-- The opening of _clean_new_entity (state.py lines 238-247): optional
`@odata.type` entry, then the scalar properties. -/
def insertScalars (sf : ODataServerFlags) (odata_type : String)
    (props : List PropDesc) (data : List (String × JVal)) :
    Option (List (String × JVal)) :=
  insertScalarsGo data props
    (if sf.provide_odata_type_tag then [("@odata.type", JVal.str odata_type)]
     else [])

/-- The primary-key pass of _clean_new_entity (state.py lines 249-252):
`if insert_data[pk_prop.name] is None: insert_data.pop(pk_prop.name)`.
The lookup is on the payload being built and raises KeyError (here:
`none`) when the key is missing there - which happens exactly when the
primary-key property is computed (it was skipped by the scalar pass). -/
def dropNullPks : List PropDesc → List (String × JVal) →
    Option (List (String × JVal))
  | [], d => some d
  | p :: rest, d =>
    if p.primary_key then
      match dictGet d p.name with
      | some v => dropNullPks rest (if v.isNull then dictPop d p.name else d)
      | none => none
    else dropNullPks rest d

/-- _remove_null_properties (state.py lines 293-296). -/
def removeNullProps : List (String × JVal) → List (String × JVal)
  | [] => []
  | (k, v) :: rest =>
    if v.isNull then removeNullProps rest else (k, v) :: removeNullProps rest

mutual

/-- EntityState._clean_new_entity (state.py lines 236-291): scalar fields,
the null-primary-key pass, then the recursive deep-insert handling of the
navigation properties, and finally the optional null stripping. -/
def cleanNewEntity (sf : ODataServerFlags) (esc : String → JVal → String) :
    Entity → Option (List (String × JVal))
  | .mk ty _ props data navs => do
    let d1 ← insertScalars sf ty props data
    let d2 ← dropNullPks props d1
    let d3 ← cleanNavs sf esc navs d2
    pure (if sf.skip_null_properties then removeNullProps d3 else d3)

/-- The navigation-property loop of _clean_new_entity (state.py lines
255-286), threading the payload through the entries in order. For each
entry: pop the mirrored foreign-key field (Python truthiness: an empty
name is skipped); a persisted single value becomes a bind reference, a
fresh one is embedded recursively; for a collection the bind references
of the persisted members are emitted first, then the recursive payloads
of the fresh members under the plain name. -/
def cleanNavs (sf : ODataServerFlags) (esc : String → JVal → String) :
    List NavEntry → List (String × JVal) → Option (List (String × JVal))
  | [], d => some d
  | .mk name fk val :: rest, d =>
    let d0 := popForeignKey fk d
    match val with
    | .noRelated => cleanNavs sf esc rest d0
    | .single e =>
      match e.stateId esc with
      | some i =>
        cleanNavs sf esc rest
          (dictSet d0 (formatODataBindKey name sf.odata_bind_requires_slash)
            (JVal.str i))
      | none => do
        let p ← cleanNewEntity sf esc e
        cleanNavs sf esc rest (dictSet d0 name (JVal.obj p))
    | .coll es =>
      let binds := es.filterMap (fun i => i.stateId esc)
      let d1 :=
        if binds.isEmpty then d0
        else
          dictSet d0 (formatODataBindKey name sf.odata_bind_requires_slash)
            (JVal.arr (binds.map JVal.str))
      do
        let news ← cleanCollNew sf esc es
        let d2 :=
          if news.isEmpty then d1
          else dictSet d1 name (JVal.arr (news.map JVal.obj))
        cleanNavs sf esc rest d2

/-- The `[self._clean_new_entity(i) for i in value if i.__odata__.id is
None]` comprehension of the collection branch (state.py lines 274-276). -/
def cleanCollNew (sf : ODataServerFlags) (esc : String → JVal → String) :
    List Entity → Option (List (List (String × JVal)))
  | [] => some []
  | e :: rest =>
    if (e.stateId esc).isSome then cleanCollNew sf esc rest
    else do
      let p ← cleanNewEntity sf esc e
      let ps ← cleanCollNew sf esc rest
      pure (p :: ps)

end

/-- EntityState.data_for_insert (state.py lines 206-207). -/
def dataForInsert (sf : ODataServerFlags) (esc : String → JVal → String)
    (e : Entity) : Option (List (String × JVal)) :=
  cleanNewEntity sf esc e

/-- The payload holds the entries `(a, va)` and `(b, vb)`, the first before
the second, and key lookup finds exactly those values. -/
def PairIn (a b : String) (va vb : JVal) (d : List (String × JVal)) : Prop :=
  dictGet d a = some va ∧ dictGet d b = some vb ∧
  [(a, va), (b, vb)].Sublist d

/-- A navigation entry whose processing cannot touch the payload key `k`:
its foreign-key pop, its plain name and its bind key all differ from `k`. -/
def NavUntouched (sf : ODataServerFlags) (k : String) : NavEntry → Prop
  | .mk name fk _ => fk ≠ some k ∧ name ≠ k ∧
      formatODataBindKey name sf.odata_bind_requires_slash ≠ k

/-! ## odata/connection.py : protocol error parsing (claim C7) -/

/-- Python truthiness of a JSON value (used by the `x or default` idiom). -/
def jTruthy : JVal → Bool
  | .null => false
  | .bool b => b
  | .num n => n != 0
  | .str s => s != ""
  | .arr xs => !xs.isEmpty
  | .obj kvs => !kvs.isEmpty

/-- Python `d.get(k, None) or fallback`. -/
def pyOr (v : Option JVal) (fallback : JVal) : JVal :=
  match v with
  | some x => if jTruthy x then x else fallback
  | none => fallback

/-- Key lookup on a JSON value: the error-parsing code only ever indexes
object-shaped bodies, which is what the wire contracts define. -/
def jGet : JVal → String → Option JVal
  | .obj kvs, k => dictGet kvs k
  | _, _ => none

/-- Python `str()` of a JSON value as used when formatting error text.
The rendering of composite values is abstracted (no claim reads it). -/
def pyStr : JVal → String
  | .null => "None"
  | .bool b => if b then "True" else "False"
  | .num n => toString n
  | .str s => s
  | .arr _ => "[...]"
  | .obj _ => "\x7b...\x7d"

/-- Substring membership, Python's `pat in hay` on strings. -/
def containsAux (pat : List Char) : List Char → Bool
  | [] => pat.isEmpty
  | c :: rest => pat.isPrefixOf (c :: rest) || containsAux pat rest

def strContains (hay pat : String) : Bool := containsAux pat.toList hay.toList

/-- The parts of an HTTP response that _handle_odata_error consults: the
status code, the `content-type` header (defaulted to `""`), the optional
`WWW-Authenticate` header, the JSON-decoded body, and the raw text. -/
structure HttpResponse where
  status_code : Nat
  content_type : String
  www_authenticate : Option String
  body : JVal
  text : String

/-- The fields of the ODataError raised for a non-2xx response. -/
structure ODataErrorInfo where
  status_code : String
  code : JVal
  message : JVal
  detailed_message : JVal

/-- ODataConnection._handle_odata_error (connection.py lines 74-134):
returns `none` for a success status (nothing raised) and the parsed error
fields otherwise. `raise_for_status` raises exactly for 4xx and 5xx. -/
def handleODataError (r : HttpResponse) : Option ODataErrorInfo :=
  if 400 ≤ r.status_code ∧ r.status_code < 600 then
    let status_code := "HTTP " ++ toString r.status_code
    let code := JVal.str "None"
    let message := JVal.str "Server did not supply any error messages"
    let detailed_message := JVal.str "None"
    if strContains r.content_type "application/json" then
      match jGet r.body "error" with
      | some odata_error =>
        let code := pyOr (jGet odata_error "code") code
        let message := pyOr (jGet odata_error "message") message
        let detailed_message :=
          match jGet odata_error "innererror" with
          | some ie => pyOr (jGet ie "message") detailed_message
          | none =>
            match jGet odata_error "details" with
            | some (JVal.arr (details :: _)) =>
              let detail_code := (jGet details "code").getD (JVal.str "")
              let detail_message := (jGet details "message").getD detailed_message
              if jTruthy detail_code then
                JVal.str ("(" ++ pyStr detail_code ++ "): " ++ pyStr detail_message)
              else detail_message
            | _ => detailed_message
        some ⟨status_code, code, message, detailed_message⟩
      | none => some ⟨status_code, code, message, detailed_message⟩
    else if strContains r.content_type "application/problem+json" then
      match jGet r.body "exception" with
      | some odata_exception =>
        let code := pyOr (jGet r.body "type") code
        let code := pyOr (jGet r.body "errorId") code
        let detailed_message := pyOr (jGet r.body "detail") detailed_message
        let message := pyOr (jGet odata_exception "message") message
        let detailed_message :=
          ["innerexception", "innerException"].foldl
            (fun dm candidate =>
              match jGet odata_exception candidate with
              | some ie => pyOr (jGet ie "message") dm
              | none => dm)
            detailed_message
        some ⟨status_code, code, message, detailed_message⟩
      | none =>
        some ⟨status_code, code, message,
          (r.www_authenticate.map JVal.str).getD detailed_message⟩
    else
      some ⟨status_code, code, message, JVal.str r.text⟩
  else none

/-! ## odata/connection.py : base headers (claim C9) -/

/-- The class-level state of ODataConnection: `base_headers` is a mutable
dict attached to the class object itself (connection.py lines 26-30). -/
structure ConnClassState where
  base_headers : List (String × String)

/-- The initial class-level header dict. -/
def defaultBaseHeaders (version : String) : List (String × String) :=
  [("Accept", "application/json"), ("OData-Version", "4.0"),
   ("User-Agent", "python-odata " ++ version)]

/-- One ODataConnection instance; it stores the extra headers it was given
but owns no header dict of its own. -/
structure ODataConnectionObj where
  extra_headers : Option (List (String × String))

/-- ODataConnection.__init__ (connection.py lines 33-44): when truthy
extra headers are supplied, `self.base_headers.update(extra_headers)`
resolves `base_headers` on the class and mutates the shared dict. -/
def connectionInit (cls : ConnClassState)
    (extra_headers : Option (List (String × String))) :
    ConnClassState × ODataConnectionObj :=
  let cls' :=
    match extra_headers with
    | some eh => if eh.isEmpty then cls else ⟨dictUpdate cls.base_headers eh⟩
    | none => cls
  (cls', ⟨extra_headers⟩)

/-- The base headers an instance starts each request from
(`headers.update(self.base_headers)` in every execute_* method): the
attribute resolves to the class-level dict in its current state. -/
def effectiveBaseHeaders (cls : ConnClassState) (_conn : ODataConnectionObj) :
    List (String × String) :=
  cls.base_headers

/-! ## Lemmas about the Python dict model -/

theorem dictGet_dictSet_self {β : Type} (d : List (String × β)) (k : String)
    (v : β) : dictGet (dictSet d k v) k = some v := by
  induction d with
  | nil => simp [dictSet, dictGet]
  | cons kv rest ih =>
    obtain ⟨k1, v1⟩ := kv
    by_cases h1 : k1 = k
    · simp [dictSet, h1, dictGet]
    · simp only [dictSet, if_neg h1, dictGet]
      exact ih

theorem dictGet_dictSet_ne {β : Type} (d : List (String × β)) (k' k : String)
    (v : β) (h : k' ≠ k) : dictGet (dictSet d k' v) k = dictGet d k := by
  induction d with
  | nil => simp [dictSet, dictGet, if_neg h]
  | cons kv rest ih =>
    obtain ⟨k1, v1⟩ := kv
    by_cases h1 : k1 = k'
    · have hk1 : ¬k1 = k := fun hc => h (h1.symm.trans hc)
      simp only [dictSet, if_pos h1, dictGet, if_neg h, if_neg hk1]
    · simp only [dictSet, if_neg h1, dictGet]
      by_cases h2 : k1 = k
      · simp [h2]
      · rw [if_neg h2, if_neg h2]
        exact ih

theorem dictGet_dictPop_ne {β : Type} (d : List (String × β)) (k' k : String)
    (h : k' ≠ k) : dictGet (dictPop d k') k = dictGet d k := by
  induction d with
  | nil => rfl
  | cons kv rest ih =>
    obtain ⟨k1, v1⟩ := kv
    by_cases h1 : k1 = k'
    · subst h1
      simp only [dictPop, if_pos rfl, dictGet, if_neg h]
      exact ih
    · simp only [dictPop, if_neg h1, dictGet]
      by_cases h2 : k1 = k
      · simp [h2]
      · rw [if_neg h2, if_neg h2]
        exact ih

theorem dictGet_eq_none_of_not_mem {β : Type} (d : List (String × β))
    (k : String) (h : k ∉ dictKeys d) : dictGet d k = none := by
  induction d with
  | nil => rfl
  | cons kv rest ih =>
    obtain ⟨k1, v1⟩ := kv
    simp only [dictKeys, List.map_cons, List.mem_cons, not_or] at h
    simp only [dictGet, if_neg (fun hc : k1 = k => h.1 hc.symm)]
    exact ih (by simpa [dictKeys] using h.2)

theorem dictGet_dictUpdate_of_not_mem {β : Type} (other d : List (String × β))
    (k : String) (h : dictGet other k = none) :
    dictGet (dictUpdate d other) k = dictGet d k := by
  induction other generalizing d with
  | nil => rfl
  | cons kv rest ih =>
    obtain ⟨k1, v1⟩ := kv
    simp only [dictGet] at h
    by_cases h1 : k1 = k
    · simp [h1] at h
    · rw [if_neg h1] at h
      simp only [dictUpdate, List.foldl_cons]
      rw [show (rest.foldl (fun acc kv => dictSet acc kv.1 kv.2)
          (dictSet d k1 v1)) = dictUpdate (dictSet d k1 v1) rest from rfl]
      rw [ih _ h, dictGet_dictSet_ne _ _ _ _ h1]

theorem dictGet_dictUpdate_of_mem {β : Type} (other d : List (String × β))
    (k : String) (v : β) (hnd : (dictKeys other).Nodup)
    (h : dictGet other k = some v) :
    dictGet (dictUpdate d other) k = some v := by
  induction other generalizing d with
  | nil => simp [dictGet] at h
  | cons kv rest ih =>
    obtain ⟨k1, v1⟩ := kv
    simp only [dictKeys, List.map_cons, List.nodup_cons] at hnd
    simp only [dictGet] at h
    simp only [dictUpdate, List.foldl_cons]
    rw [show (rest.foldl (fun acc kv => dictSet acc kv.1 kv.2)
        (dictSet d k1 v1)) = dictUpdate (dictSet d k1 v1) rest from rfl]
    by_cases h1 : k1 = k
    · rw [if_pos h1] at h
      have hrest : dictGet rest k = none :=
        dictGet_eq_none_of_not_mem _ _ (h1 ▸ hnd.1)
      rw [dictGet_dictUpdate_of_not_mem _ _ _ hrest, ← h1,
        dictGet_dictSet_self]
      exact h
    · rw [if_neg h1] at h
      exact ih _ hnd.2 h

theorem dictSet_eq_append {β : Type} (d : List (String × β)) (k : String)
    (v : β) (h : dictGet d k = none) : dictSet d k v = d ++ [(k, v)] := by
  induction d with
  | nil => rfl
  | cons kv rest ih =>
    obtain ⟨k1, v1⟩ := kv
    simp only [dictGet] at h
    by_cases h1 : k1 = k
    · simp [h1] at h
    · rw [if_neg h1] at h
      simp only [dictSet, if_neg h1, List.cons_append]
      rw [ih h]

theorem dictGet_append {β : Type} (d1 d2 : List (String × β)) (k : String) :
    dictGet (d1 ++ d2) k =
      match dictGet d1 k with
      | some v => some v
      | none => dictGet d2 k := by
  induction d1 with
  | nil => rfl
  | cons kv rest ih =>
    obtain ⟨k1, v1⟩ := kv
    by_cases h1 : k1 = k
    · simp [dictGet, h1]
    · simp only [List.cons_append, dictGet, if_neg h1]
      exact ih

theorem dictPop_eq_filter {β : Type} (d : List (String × β)) (k : String) :
    dictPop d k = d.filter (fun kv => kv.1 != k) := by
  induction d with
  | nil => rfl
  | cons kv rest ih =>
    obtain ⟨k1, v1⟩ := kv
    by_cases h1 : k1 = k
    · have hb : (k1 != k) = false := by simp [bne, h1]
      simp [dictPop, h1, List.filter_cons, hb, ih]
    · have hb : (k1 != k) = true := by simp [bne, h1]
      simp [dictPop, h1, List.filter_cons, hb, ih]

theorem removeNullProps_eq_filter (d : List (String × JVal)) :
    removeNullProps d = d.filter (fun kv => !kv.2.isNull) := by
  induction d with
  | nil => rfl
  | cons kv rest ih =>
    obtain ⟨k1, v1⟩ := kv
    by_cases h1 : v1.isNull = true
    · simp [removeNullProps, h1, List.filter, ih]
    · simp [removeNullProps, h1, List.filter, ih]

theorem dictGet_removeNullProps (d : List (String × JVal)) (k : String)
    (v : JVal) (h : dictGet d k = some v) (hv : v.isNull = false) :
    dictGet (removeNullProps d) k = some v := by
  induction d with
  | nil => simp [dictGet] at h
  | cons kv rest ih =>
    obtain ⟨k1, v1⟩ := kv
    simp only [dictGet] at h
    by_cases h1 : k1 = k
    · rw [if_pos h1] at h
      have hv1 : v1 = v := Option.some.inj h
      subst hv1
      simp only [removeNullProps, hv, Bool.false_eq_true, if_false, dictGet,
        if_pos h1]
    · rw [if_neg h1] at h
      by_cases h2 : v1.isNull = true
      · simpa [removeNullProps, h2] using ih h
      · simp only [removeNullProps, h2, Bool.false_eq_true, if_false, dictGet,
          if_neg h1]
        exact ih h

theorem sublist_dictSet {β : Type} (l d : List (String × β)) (k : String)
    (v : β) (hs : l.Sublist d) :
    (∀ e ∈ l, e.1 ≠ k) → l.Sublist (dictSet d k v) := by
  induction hs with
  | slnil => intro _; exact List.nil_sublist _
  | cons a hsub ih =>
    intro hne
    obtain ⟨ka, va⟩ := a
    by_cases hk : ka = k
    · simp only [dictSet, if_pos hk]
      exact List.Sublist.cons _ hsub
    · simp only [dictSet, if_neg hk]
      exact List.Sublist.cons _ (ih hne)
  | cons₂ a hsub ih =>
    intro hne
    obtain ⟨ka, va⟩ := a
    have hka : ka ≠ k := hne (ka, va) (List.mem_cons_self _ _)
    simp only [dictSet, if_neg hka]
    exact List.Sublist.cons₂ _
      (ih (fun e he => hne e (List.mem_cons_of_mem _ he)))

theorem sublist_dictPop {β : Type} (l d : List (String × β)) (k : String)
    (hne : ∀ e ∈ l, e.1 ≠ k) (hs : l.Sublist d) :
    l.Sublist (dictPop d k) := by
  rw [dictPop_eq_filter]
  have heq : l.filter (fun kv => kv.1 != k) = l := by
    rw [List.filter_eq_self]
    intro a ha
    simpa [bne_iff_ne] using hne a ha
  exact heq ▸ hs.filter (fun kv => kv.1 != k)

theorem sublist_removeNullProps (l d : List (String × JVal))
    (hnn : ∀ e ∈ l, e.2.isNull = false) (hs : l.Sublist d) :
    l.Sublist (removeNullProps d) := by
  rw [removeNullProps_eq_filter]
  have heq : l.filter (fun kv => !kv.2.isNull) = l := by
    rw [List.filter_eq_self]
    intro a ha
    simp [hnn a ha]
  exact heq ▸ hs.filter (fun kv => !kv.2.isNull)

/-! ## Lemmas about the heap of list cells -/

theorem cellGet_append_lt (l m : List (List String)) (r : Nat)
    (h : r < l.length) : cellGet (l ++ m) r = cellGet l r := by
  induction l generalizing r with
  | nil => simp at h
  | cons c rest ih =>
    cases r with
    | zero => rfl
    | succ n =>
      simp only [List.length_cons, Nat.succ_lt_succ_iff] at h
      exact ih n h

theorem cellGet_cellSet_ne (l : List (List String)) (r r' : Nat)
    (v : List String) (h : r ≠ r') : cellGet (cellSet l r' v) r = cellGet l r := by
  induction l generalizing r r' with
  | nil => rfl
  | cons c rest ih =>
    cases r' with
    | zero =>
      cases r with
      | zero => exact absurd rfl h
      | succ n => rfl
    | succ n' =>
      cases r with
      | zero => rfl
      | succ n => exact ih n n' (fun hc => h (congrArg Nat.succ hc))

theorem appendItem_read_ne (st : Store) (ref : Nat) (x : String) (r : Nat)
    (h : r ≠ ref) : (st.appendItem ref x).read r = st.read r :=
  cellGet_cellSet_ne st.cells r ref _ h

theorem read_foldl_appendItem {α : Type} (g : α → String) (ref : Nat)
    (names : List α) :
    ∀ (st : Store) (r : Nat), r ≠ ref →
      (names.foldl (fun acc n => acc.appendItem ref (g n)) st).read r =
        st.read r := by
  induction names with
  | nil => intro st r _; rfl
  | cons n rest ih =>
    intro st r h
    simp only [List.foldl_cons]
    rw [ih _ _ h]
    exact appendItem_read_ne _ _ _ _ h

theorem newQuery_read_lt (s : Store) (q : QueryObj) (r : Nat)
    (h : r < s.cells.length) :
    ((Query.newQuery s q).1).read r = s.read r := by
  show cellGet ((((s.cells ++ _) ++ _) ++ _) ++ _) r = cellGet s.cells r
  have h1 : r < (s.cells ++ [s.read q.selectRef]).length := by
    simp only [List.length_append, List.length_cons, List.length_nil]; omega
  have h2 : r < ((s.cells ++ [s.read q.selectRef]) ++ [s.read q.filterRef]).length := by
    simp only [List.length_append, List.length_cons, List.length_nil]; omega
  have h3 : r < (((s.cells ++ [s.read q.selectRef]) ++ [s.read q.filterRef]) ++
      [s.read q.expandRef]).length := by
    simp only [List.length_append, List.length_cons, List.length_nil]; omega
  rw [cellGet_append_lt _ _ _ h3, cellGet_append_lt _ _ _ h2,
    cellGet_append_lt _ _ _ h1, cellGet_append_lt _ _ _ h]

theorem newQuery_refs_ge (s : Store) (q : QueryObj) :
    s.cells.length ≤ (Query.newQuery s q).2.selectRef ∧
    s.cells.length ≤ (Query.newQuery s q).2.filterRef ∧
    s.cells.length ≤ (Query.newQuery s q).2.expandRef ∧
    s.cells.length ≤ (Query.newQuery s q).2.orderbyRef := by
  refine ⟨?_, ?_, ?_, ?_⟩ <;>
    (simp only [Query.newQuery, Store.alloc, List.length_append,
      List.length_cons, List.length_nil]; omega)

theorem readOpts_of_reads_eq (s : Store) (q : QueryObj)
    (hv : QueryObj.Valid s q) (s' : Store)
    (h : ∀ r, r < s.cells.length → s'.read r = s.read r) :
    QueryObj.readOpts s' q = QueryObj.readOpts s q := by
  obtain ⟨h1, h2, h3, h4⟩ := hv
  unfold QueryObj.readOpts
  rw [h _ h1, h _ h2, h _ h3, h _ h4]

/-! ## Lemmas about insert-payload construction -/

theorem formatODataBindKey_ne (n : String) (slash : Bool) :
    formatODataBindKey n slash ≠ n := by
  have h11 : ("@odata.bind" : String).length = 11 := by decide
  have hs1 : ("/" : String).length = 1 := by decide
  cases slash with
  | false =>
    intro h
    have hl := congrArg String.length h
    simp only [formatODataBindKey, Bool.false_eq_true, if_false,
      String.length_append, h11] at hl
    omega
  | true =>
    intro h
    have hl := congrArg String.length h
    simp only [formatODataBindKey, if_true, String.length_append, h11,
      hs1] at hl
    omega

theorem mem_pair_fst_ne {a b k : String} {va vb : JVal}
    (hka : k ≠ a) (hkb : k ≠ b) :
    ∀ e ∈ [(a, va), (b, vb)], e.1 ≠ k := by
  intro e he
  simp only [List.mem_cons, List.mem_singleton, List.not_mem_nil,
    or_false] at he
  rcases he with he | he <;> subst he
  · exact fun hc => hka hc.symm
  · exact fun hc => hkb hc.symm

theorem PairIn_dictSet (a b k : String) (va vb v : JVal)
    (d : List (String × JVal)) (hka : k ≠ a) (hkb : k ≠ b)
    (h : PairIn a b va vb d) : PairIn a b va vb (dictSet d k v) := by
  obtain ⟨h1, h2, h3⟩ := h
  refine ⟨?_, ?_, sublist_dictSet _ _ _ _ h3 (mem_pair_fst_ne hka hkb)⟩
  · rw [dictGet_dictSet_ne _ _ _ _ hka]; exact h1
  · rw [dictGet_dictSet_ne _ _ _ _ hkb]; exact h2

theorem PairIn_dictPop (a b k : String) (va vb : JVal)
    (d : List (String × JVal)) (hka : k ≠ a) (hkb : k ≠ b)
    (h : PairIn a b va vb d) : PairIn a b va vb (dictPop d k) := by
  obtain ⟨h1, h2, h3⟩ := h
  refine ⟨?_, ?_, sublist_dictPop _ _ _ (mem_pair_fst_ne hka hkb) h3⟩
  · rw [dictGet_dictPop_ne _ _ _ hka]; exact h1
  · rw [dictGet_dictPop_ne _ _ _ hkb]; exact h2

theorem PairIn_popForeignKey (a b : String) (va vb : JVal)
    (fk : Option String) (d : List (String × JVal))
    (hfa : fk ≠ some a) (hfb : fk ≠ some b) (h : PairIn a b va vb d) :
    PairIn a b va vb (popForeignKey fk d) := by
  match fk with
  | none => exact h
  | some f =>
    by_cases hf : f = ""
    · simpa [popForeignKey, hf] using h
    · simp only [popForeignKey, if_neg hf]
      exact PairIn_dictPop _ _ _ _ _ _
        (fun hc => hfa (congrArg some hc)) (fun hc => hfb (congrArg some hc)) h

theorem PairIn_dictSetCond (a b k : String) (va vb v : JVal) (cond : Bool)
    (d : List (String × JVal)) (hka : k ≠ a) (hkb : k ≠ b)
    (h : PairIn a b va vb d) :
    PairIn a b va vb (if cond then d else dictSet d k v) := by
  cases cond with
  | true => simpa using h
  | false => simpa using PairIn_dictSet _ _ _ _ _ _ _ hka hkb h

theorem PairIn_skipNull (cond : Bool) (a b : String) (va vb : JVal)
    (d : List (String × JVal)) (hva : va.isNull = false)
    (hvb : vb.isNull = false) (h : PairIn a b va vb d) :
    PairIn a b va vb (if cond then removeNullProps d else d) := by
  cases cond with
  | false => simpa using h
  | true =>
    simp only [if_true]
    obtain ⟨h1, h2, h3⟩ := h
    refine ⟨dictGet_removeNullProps _ _ _ h1 hva,
      dictGet_removeNullProps _ _ _ h2 hvb,
      sublist_removeNullProps _ _ ?_ h3⟩
    intro e he
    simp only [List.mem_cons, List.mem_singleton, List.not_mem_nil,
      or_false] at he
    rcases he with he | he <;> subst he
    · exact hva
    · exact hvb

theorem cleanNavs_append (sf : ODataServerFlags) (esc : String → JVal → String)
    (l1 l2 : List NavEntry) :
    ∀ d, cleanNavs sf esc (l1 ++ l2) d =
      (cleanNavs sf esc l1 d).bind (fun d' => cleanNavs sf esc l2 d') := by
  induction l1 with
  | nil => intro d; simp [cleanNavs]
  | cons ne rest ih =>
    intro d
    obtain ⟨name, fk, val⟩ := ne
    cases val with
    | noRelated =>
      simp only [List.cons_append, cleanNavs]
      exact ih _
    | single e =>
      simp only [List.cons_append, cleanNavs]
      cases Entity.stateId esc e with
      | some i => exact ih _
      | none =>
        cases cleanNewEntity sf esc e with
        | none => simp
        | some p => simpa using ih _
    | coll es =>
      simp only [List.cons_append, cleanNavs]
      cases cleanCollNew sf esc es with
      | none => simp
      | some news => simpa using ih _

theorem cleanNavs_preserves (sf : ODataServerFlags)
    (esc : String → JVal → String) (a b : String) (va vb : JVal) :
    ∀ (post : List NavEntry) (d d' : List (String × JVal)),
      (∀ ne ∈ post, NavUntouched sf a ne ∧ NavUntouched sf b ne) →
      cleanNavs sf esc post d = some d' →
      PairIn a b va vb d → PairIn a b va vb d' := by
  intro post
  induction post with
  | nil =>
    intro d d' _ heq hp
    have hd : d = d' := Option.some.inj heq
    exact hd ▸ hp
  | cons ne rest ih =>
    intro d d' hno heq hp
    obtain ⟨name, fk, val⟩ := ne
    obtain ⟨⟨hfa, hna, hba⟩, ⟨hfb, hnb, hbb⟩⟩ := hno _ (List.mem_cons_self _ _)
    have hno' : ∀ x ∈ rest, NavUntouched sf a x ∧ NavUntouched sf b x :=
      fun x hx => hno x (List.mem_cons_of_mem _ hx)
    have hp0 : PairIn a b va vb (popForeignKey fk d) :=
      PairIn_popForeignKey _ _ _ _ _ _ hfa hfb hp
    cases val with
    | noRelated =>
      simp only [cleanNavs] at heq
      exact ih _ _ hno' heq hp0
    | single e =>
      simp only [cleanNavs] at heq
      cases hsid : Entity.stateId esc e with
      | some i =>
        rw [hsid] at heq
        exact ih _ _ hno' heq
          (PairIn_dictSet _ _ _ _ _ _ _ hba hbb hp0)
      | none =>
        rw [hsid] at heq
        cases hce : cleanNewEntity sf esc e with
        | none => rw [hce] at heq; simp at heq
        | some p =>
          rw [hce] at heq
          simp only [Option.some_bind] at heq
          exact ih _ _ hno' heq
            (PairIn_dictSet _ _ _ _ _ _ _ hna hnb hp0)
    | coll es =>
      simp only [cleanNavs] at heq
      cases hcc : cleanCollNew sf esc es with
      | none => rw [hcc] at heq; simp at heq
      | some news =>
        rw [hcc] at heq
        exact ih _ _ hno' heq
          (PairIn_dictSetCond _ _ _ _ _ _ _ _ hna hnb
            (PairIn_dictSetCond _ _ _ _ _ _ _ _ hba hbb hp0))

theorem optionBind_some {α β : Type} (a : α) (f : α → Option β) :
    Option.bind (some a) f = f a := rfl

theorem splitChar_no_sep (sep : Char) (cs : List Char)
    (h : ∀ c ∈ cs, c ≠ sep) : splitChar sep cs = [cs] := by
  induction cs with
  | nil => rfl
  | cons c rest ih =>
    have hr := ih (fun x hx => h x (List.mem_cons_of_mem _ hx))
    simp only [splitChar, hr]
    rw [if_neg (h c (List.mem_cons_self _ _))]

theorem cleanNavs_coll_step (sf : ODataServerFlags)
    (esc : String → JVal → String) (name : String) (fk : Option String)
    (es : List Entity) (rest : List NavEntry) (d : List (String × JVal))
    (news : List (List (String × JVal)))
    (h4 : cleanCollNew sf esc es = some news) :
    cleanNavs sf esc (NavEntry.mk name fk (NavVal.coll es) :: rest) d =
      cleanNavs sf esc rest
        (if news.isEmpty = true then
          (if (es.filterMap (fun i => i.stateId esc)).isEmpty = true then
            popForeignKey fk d
          else
            dictSet (popForeignKey fk d)
              (formatODataBindKey name sf.odata_bind_requires_slash)
              (JVal.arr ((es.filterMap (fun i => i.stateId esc)).map JVal.str)))
        else
          dictSet
            (if (es.filterMap (fun i => i.stateId esc)).isEmpty = true then
              popForeignKey fk d
            else
              dictSet (popForeignKey fk d)
                (formatODataBindKey name sf.odata_bind_requires_slash)
                (JVal.arr ((es.filterMap (fun i => i.stateId esc)).map JVal.str)))
            name (JVal.arr (news.map JVal.obj))) := by
  simp only [cleanNavs, h4]
  try rfl

/-! ## The claims -/

/-- C1: iterating a query yields every row of a `value` array in order;
when the body carries an `@odata.nextLink` and the caller set no `$top`,
the next page is requested with the options cleared and iteration repeats,
while with `$top` set the link is not followed. In particular, on the
two-page sequence the query yields both rows with exactly two requests
without `$top`, and only the first page's row with exactly one request
when `$top` is set. -/
theorem spec_c1_pagination {Row Ent : Type} (mat : Row → Ent)
    (matSingle : RespBody Row → Ent) (singleton : Bool) (x y : Row)
    (link : String) :
    (iterQuery mat matSingle singleton false
        [⟨some [x], some link⟩, ⟨some [y], none⟩] =
      some ([mat x, mat y], 2)) ∧
    (iterQuery mat matSingle singleton true
        [⟨some [x], some link⟩, ⟨some [y], none⟩] =
      some ([mat x], 1)) ∧
    (∀ (r : RespBody Row) (rows : List Row) (rest : List (RespBody Row)),
      r.value = some rows →
      iterQuery mat matSingle singleton true (r :: rest) =
        some (rows.map mat, 1)) ∧
    (∀ (rows : List Row) (link2 : String) (rest : List (RespBody Row)),
      iterQuery mat matSingle singleton false
          (⟨some rows, some link2⟩ :: rest) =
        (iterQuery mat matSingle singleton false rest).map
          (fun p => (rows.map mat ++ p.1, p.2 + 1))) := by
  refine ⟨rfl, rfl, ?_, ?_⟩
  · intro r rows rest h
    obtain ⟨v, nl⟩ := r
    simp only at h
    subst h
    simp [iterQuery]
  · intro rows link2 rest
    cases h : iterQuery mat matSingle singleton false rest with
    | none => simp [iterQuery, h]
    | some p => simp [iterQuery, h]

/-- Witness for C1: a single page with `$top` set yields its row with one
request and does not follow any link. -/
theorem spec_c1_pagination_witness :
    iterQuery (fun r : Nat => r) (fun _ => 0) false true
        [⟨some [7], some "next"⟩] = some ([7], 1) :=
  (spec_c1_pagination (fun r : Nat => r) (fun _ => 0) false 7 7
    "next").2.2.1 ⟨some [7], some "next"⟩ [7] [] rfl

/-- C4: one() raises NoResultsFound on zero results, MultipleResultsFound
on two or more, returns the single element on exactly one, and restores
the pre-existing `$top` value in all three cases. -/
theorem spec_c4_one_cardinality {Row Ent : Type} (mat : Row → Ent)
    (matSingle : RespBody Row → Ent) (singleton : Bool) (top0 : Option Int)
    (responses : List (RespBody Row)) (rows : List Ent) (n : Nat)
    (h : iterQuery mat matSingle singleton true responses = some (rows, n)) :
    (rows = [] →
      Query.one mat matSingle singleton top0 responses =
        (OneOutcome.noResults, top0)) ∧
    (∀ x, rows = [x] →
      Query.one mat matSingle singleton top0 responses =
        (OneOutcome.ok x, top0)) ∧
    (∀ x y zs, rows = x :: y :: zs →
      Query.one mat matSingle singleton top0 responses =
        (OneOutcome.multipleResults, top0)) := by
  refine ⟨?_, ?_, ?_⟩
  · intro hr
    subst hr
    simp [Query.one, h]
  · intro x hr
    subst hr
    simp [Query.one, h]
  · intro x y zs hr
    subst hr
    simp [Query.one, h]

/-- Witness for C4: a one-row response with a prior `$top` of 5 returns
the row and leaves `$top` at 5. -/
theorem spec_c4_one_cardinality_witness :
    Query.one (fun r : Nat => r) (fun _ => 0) false (some 5)
        [⟨some [3], none⟩] = (OneOutcome.ok 3, some 5) :=
  (spec_c4_one_cardinality (fun r : Nat => r) (fun _ => 0) false (some 5)
    [⟨some [3], none⟩] [3] 1 rfl).2.1 3 rfl

/-- C5: insert-payload construction crashes (KeyError, modelled as `none`)
on an entity whose primary-key property is marked computed: the scalar
pass skips the computed key, and the null-key removal pass then indexes
the missing payload entry. The claim asserts construction succeeds for
every entity; this concrete entity refutes that. -/
theorem spec_c5_insert_computed_pk_keyerror :
    dataForInsert ⟨false, false, false⟩ (fun _ v => pyStr v)
      (Entity.mk "Test.Item" (some "Items") [⟨"Id", true, true⟩]
        [("Id", JVal.num 1)] []) = none := rfl

/-- Counterexample for C6: loading a mapping that lacks `@odata.etag`
clears the stored etag rather than keeping it, and an existing data key
absent from the mapping survives rather than being replaced away. -/
theorem spec_c6_load_counterexample :
    (EntityState.update
        ⟨[("a", JVal.num 1)], [], some (JVal.str "E"), none⟩
        [("b", JVal.num 2)]).etag ≠ some (JVal.str "E") ∧
    dictGet (EntityState.update
        ⟨[("a", JVal.num 1)], [], some (JVal.str "E"), none⟩
        [("b", JVal.num 2)]).data "a" = some (JVal.num 1) :=
  ⟨fun h => Option.noConfusion h, rfl⟩

/-- C6 (amended): update merges the mapping into the data (keys absent
from the mapping keep their previous values, keys present take the
mapping's value), and the etag is recomputed from the mapping alone - set
to the mapping's `@odata.etag` when present and non-null, and cleared to
null when the field is absent. -/
theorem spec_c6_load_amended (s : EntityState) (other : List (String × JVal))
    (k : String) :
    (dictGet other "@odata.etag" = none →
      (EntityState.update s other).etag = none) ∧
    (∀ v, dictGet other "@odata.etag" = some v → v.isNull = false →
      (EntityState.update s other).etag = some v) ∧
    (dictGet other k = none →
      dictGet (EntityState.update s other).data k = dictGet s.data k) ∧
    ((dictKeys other).Nodup → ∀ v, dictGet other k = some v →
      dictGet (EntityState.update s other).data k = some v) := by
  refine ⟨?_, ?_, ?_, ?_⟩
  · intro h
    simp [EntityState.update, pyGetOpt, h]
  · intro v hv hnn
    simp [EntityState.update, pyGetOpt, hv, hnn]
  · intro h
    exact dictGet_dictUpdate_of_not_mem other s.data k h
  · intro hnd v hv
    exact dictGet_dictUpdate_of_mem other s.data k v hnd hv

/-- Witness for the amended C6: a data key absent from the loaded mapping
keeps its previous value. -/
theorem spec_c6_load_amended_witness :
    dictGet (EntityState.update
        ⟨[("a", JVal.num 1)], [], some (JVal.str "E"), none⟩
        [("b", JVal.num 2)]).data "a" =
      dictGet [("a", JVal.num 1)] "a" :=
  (spec_c6_load_amended
    ⟨[("a", JVal.num 1)], [], some (JVal.str "E"), none⟩
    [("b", JVal.num 2)] "a").2.2.1 rfl

/-- C8: with compound mode on, the slash path `A/B/C` is rewritten to the
nested form `A($expand=B($expand=C))` and a single segment is left
unchanged; with compound mode off every path passes through exactly as
given. -/
theorem spec_c8_compound_expand :
    compoundExpandName true "A/B/C" = "A($expand=B($expand=C))" ∧
    (∀ name : String, '/' ∉ name.toList →
      compoundExpandName true name = name) ∧
    (∀ name : String, compoundExpandName false name = name) := by
  refine ⟨by decide, ?_, fun name => rfl⟩
  intro name h
  have hsplit : splitChar '/' name.toList = [name.toList] :=
    splitChar_no_sep _ _ (fun c hc hce => h (hce ▸ hc))
  simp only [compoundExpandName, if_true, hsplit, List.map_cons,
    List.map_nil, List.reverse_cons, List.reverse_nil, List.nil_append,
    List.foldl_cons, List.foldl_nil]
  rfl

/-- Witness for C8: a single-segment expand path is unchanged with
compound mode on. -/
theorem spec_c8_compound_expand_witness :
    compoundExpandName true "A" = "A" :=
  spec_c8_compound_expand.2.1 "A" (by decide)

/-- Counterexample for C9: constructing a second connection with extra
headers changes the headers an already-constructed first connection uses,
because `base_headers` is a class-level dict mutated in place. -/
theorem spec_c9_headers_counterexample :
    effectiveBaseHeaders
        (connectionInit
          (connectionInit ⟨defaultBaseHeaders "0.2"⟩ none).1
          (some [("X-Custom", "1")])).1
        (connectionInit ⟨defaultBaseHeaders "0.2"⟩ none).2 ≠
      effectiveBaseHeaders
        (connectionInit ⟨defaultBaseHeaders "0.2"⟩ none).1
        (connectionInit ⟨defaultBaseHeaders "0.2"⟩ none).2 := by
  decide

/-- C9 (amended): the base headers are class-level shared state:
constructing a connection with a non-empty extra-header dict merges those
entries into the shared dict, after which every instance - existing or
future - resolves its base headers to the merged dict. -/
theorem spec_c9_headers_amended (cls : ConnClassState)
    (extra : List (String × String)) (conn : ODataConnectionObj)
    (k v : String) (hne : extra ≠ []) (hnd : (dictKeys extra).Nodup)
    (hk : dictGet extra k = some v) :
    ((connectionInit cls (some extra)).1).base_headers =
      dictUpdate cls.base_headers extra ∧
    dictGet (effectiveBaseHeaders ((connectionInit cls (some extra)).1)
      conn) k = some v := by
  have hemp : extra.isEmpty = false := by
    cases extra with
    | nil => exact absurd rfl hne
    | cons a l => rfl
  constructor
  · simp [connectionInit, hemp]
  · simp only [effectiveBaseHeaders, connectionInit, hemp,
      Bool.false_eq_true, if_false]
    exact dictGet_dictUpdate_of_mem _ _ _ _ hnd hk

/-- Witness for the amended C9: after one construction with an extra
header, an unrelated instance resolves that header from the shared
dict. -/
theorem spec_c9_headers_amended_witness :
    ((connectionInit ⟨defaultBaseHeaders "0.2"⟩
        (some [("X-Custom", "1")])).1).base_headers =
      dictUpdate (defaultBaseHeaders "0.2") [("X-Custom", "1")] ∧
    dictGet (effectiveBaseHeaders
      ((connectionInit ⟨defaultBaseHeaders "0.2"⟩
        (some [("X-Custom", "1")])).1) ⟨none⟩) "X-Custom" = some "1" :=
  spec_c9_headers_amended ⟨defaultBaseHeaders "0.2"⟩ [("X-Custom", "1")]
    ⟨none⟩ "X-Custom" "1" (by decide) (by decide) rfl

/-- C10: the dictionary-access method EntityState.get always raises
TypeError, because the built-in dict.get does not accept its `default`
argument by keyword; it never returns a value. The claim asserts it does
not fail; every input refutes that. -/
theorem spec_c10_get_type_error (s : EntityState) (key : String)
    (default : JVal) :
    EntityState.get s key default =
      PyRes.exn "TypeError: get() takes no keyword arguments" := rfl

/-- C7: a non-2xx response with content-type `application/problem+json`
whose object body has no `exception` key yields a ProtocolError whose
detailed_message is the `WWW-Authenticate` header value, or the default
placeholder "None" when the header is absent, while code and message keep
their defaults. -/
theorem spec_c7_problem_json_fallback (r : HttpResponse)
    (kvs : List (String × JVal)) (h4 : 400 ≤ r.status_code)
    (h6 : r.status_code < 600)
    (hct : r.content_type = "application/problem+json")
    (hbody : r.body = JVal.obj kvs)
    (hexc : dictGet kvs "exception" = none) :
    handleODataError r = some
      ⟨"HTTP " ++ toString r.status_code, JVal.str "None",
        JVal.str "Server did not supply any error messages",
        (r.www_authenticate.map JVal.str).getD (JVal.str "None")⟩ := by
  have hc1 : strContains "application/problem+json" "application/json" =
      false := by decide
  have hc2 : strContains "application/problem+json"
      "application/problem+json" = true := by decide
  simp only [handleODataError]
  rw [if_pos (show 400 ≤ r.status_code ∧ r.status_code < 600 from ⟨h4, h6⟩)]
  rw [hct, hbody]
  simp only [hc1, hc2, Bool.false_eq_true, if_false, if_true, jGet, hexc]

/-- Witness for C7: a 404 problem+json body without `exception` and with a
WWW-Authenticate header produces the defaults with that header as the
detailed message. -/
theorem spec_c7_problem_json_fallback_witness :
    handleODataError
        ⟨404, "application/problem+json", some "Bearer",
          JVal.obj [("title", JVal.str "t")], "raw"⟩ = some
      ⟨"HTTP " ++ toString (404 : Nat), JVal.str "None",
        JVal.str "Server did not supply any error messages",
        ((some "Bearer").map JVal.str).getD (JVal.str "None")⟩ :=
  spec_c7_problem_json_fallback _ [("title", JVal.str "t")]
    (by decide) (by decide) rfl rfl rfl

/-- C2: every builder operation leaves the original query's option map -
its scalar options and the contents of its $select, $filter, $expand and
$orderby list cells - unchanged, and appending to the derived query's
freshly allocated cells never changes the original's cells. -/
theorem spec_c2_builder_immutability (s : Store) (q : QueryObj)
    (hv : QueryObj.Valid s q) :
    (∀ names, QueryObj.readOpts (Query.select s q names).1 q =
      QueryObj.readOpts s q) ∧
    (∀ value, QueryObj.readOpts (Query.filter s q value).1 q =
      QueryObj.readOpts s q) ∧
    (∀ compound names,
      QueryObj.readOpts (Query.expand s q compound names).1 q =
        QueryObj.readOpts s q) ∧
    (∀ values, QueryObj.readOpts (Query.order_by s q values).1 q =
      QueryObj.readOpts s q) ∧
    (∀ v, QueryObj.readOpts (Query.limit s q v).1 q =
      QueryObj.readOpts s q) ∧
    (∀ v, QueryObj.readOpts (Query.offset s q v).1 q =
      QueryObj.readOpts s q) ∧
    (∀ v, QueryObj.readOpts (Query.applyOption s q v).1 q =
      QueryObj.readOpts s q) ∧
    (∀ (st : Store) (x : String) (ref : Nat),
      (ref = (Query.newQuery s q).2.selectRef ∨
       ref = (Query.newQuery s q).2.filterRef ∨
       ref = (Query.newQuery s q).2.expandRef ∨
       ref = (Query.newQuery s q).2.orderbyRef) →
      QueryObj.readOpts (st.appendItem ref x) q =
        QueryObj.readOpts st q) := by
  obtain ⟨hg1, hg2, hg3, hg4⟩ := newQuery_refs_ge s q
  obtain ⟨hv1, hv2, hv3, hv4⟩ := hv
  have hfold : ∀ {α : Type} (g : α → String) (ref : Nat),
      s.cells.length ≤ ref → ∀ (names : List α),
      QueryObj.readOpts
        (names.foldl (fun st n => st.appendItem ref (g n))
          (Query.newQuery s q).1) q = QueryObj.readOpts s q := by
    intro α g ref href names
    refine readOpts_of_reads_eq s q ⟨hv1, hv2, hv3, hv4⟩ _ ?_
    intro r hr
    rw [read_foldl_appendItem g ref names _ r (by omega)]
    exact newQuery_read_lt s q r hr
  have hnewq : QueryObj.readOpts (Query.newQuery s q).1 q =
      QueryObj.readOpts s q :=
    readOpts_of_reads_eq s q ⟨hv1, hv2, hv3, hv4⟩ _
      (fun r hr => newQuery_read_lt s q r hr)
  refine ⟨?_, ?_, ?_, ?_, ?_, ?_, ?_, ?_⟩
  · intro names
    exact hfold (fun n => n) _ hg1 names
  · intro value
    refine readOpts_of_reads_eq s q ⟨hv1, hv2, hv3, hv4⟩ _ ?_
    intro r hr
    show ((Query.newQuery s q).1.appendItem
        (Query.newQuery s q).2.filterRef value).read r = s.read r
    rw [appendItem_read_ne _ _ _ _ (by omega)]
    exact newQuery_read_lt s q r hr
  · intro compound names
    exact hfold (fun n => compoundExpandName compound n) _ hg3 names
  · intro values
    exact hfold (fun n => n) _ hg4 values
  · intro v
    exact hnewq
  · intro v
    exact hnewq
  · intro v
    exact hnewq
  · intro st x ref href
    have hne : ∀ r, r < s.cells.length →
        (st.appendItem ref x).read r = st.read r := by
      intro r hr
      apply appendItem_read_ne
      rcases href with h | h | h | h <;> omega
    unfold QueryObj.readOpts
    rw [hne _ hv1, hne _ hv2, hne _ hv3, hne _ hv4]

/-- Witness for C2: a concrete 4-cell store with a valid query; select
leaves the original's observable options unchanged. -/
theorem spec_c2_builder_immutability_witness :
    QueryObj.readOpts
        (Query.select ⟨[[], [], [], []]⟩ ⟨none, none, none, 0, 1, 2, 3⟩
          ["Name"]).1 ⟨none, none, none, 0, 1, 2, 3⟩ =
      QueryObj.readOpts ⟨[[], [], [], []]⟩
        ⟨none, none, none, 0, 1, 2, 3⟩ :=
  (spec_c2_builder_immutability ⟨[[], [], [], []]⟩
    ⟨none, none, none, 0, 1, 2, 3⟩
    ⟨by decide, by decide, by decide, by decide⟩).1 ["Name"]

/-- C3: for an entity with a collection navigation property whose related
value contains both persisted members (those with an id) and fresh members
(those without), the insert payload carries the bind key
`<prop>@odata.bind` (slash-prefixed per server flag) holding exactly the
ids of the persisted members, and the plain key `<prop>` holding exactly
the recursive insert payloads of the fresh members, with the bind key
placed before the plain key; `PairIn` states exactly that containment and
order. The payload hypotheses name the values produced by the surrounding
passes, and the NavUntouched hypotheses say no later navigation entry
overwrites or pops the two keys. -/
theorem spec_c3_deep_insert_collection (sf : ODataServerFlags)
    (esc : String → JVal → String) (ty : String) (ocoll : Option String)
    (props : List PropDesc) (data : List (String × JVal))
    (navsPre navsPost : List NavEntry) (name : String) (fk : Option String)
    (es : List Entity) (d1 d2 dPre dPost : List (String × JVal))
    (binds : List String) (newPayloads : List (List (String × JVal)))
    (hbinds : binds = es.filterMap (fun i => i.stateId esc))
    (h1 : insertScalars sf ty props data = some d1)
    (h2 : dropNullPks props d1 = some d2)
    (h3 : cleanNavs sf esc navsPre d2 = some dPre)
    (h4 : cleanCollNew sf esc es = some newPayloads)
    (h5 : binds ≠ []) (h6 : newPayloads ≠ [])
    (hd0a : dictGet (popForeignKey fk dPre)
      (formatODataBindKey name sf.odata_bind_requires_slash) = none)
    (hd0b : dictGet (popForeignKey fk dPre) name = none)
    (h9 : cleanNavs sf esc navsPost
      (popForeignKey fk dPre ++
        [(formatODataBindKey name sf.odata_bind_requires_slash,
            JVal.arr (binds.map JVal.str)),
         (name, JVal.arr (newPayloads.map JVal.obj))]) = some dPost)
    (h10 : ∀ ne ∈ navsPost,
      NavUntouched sf
        (formatODataBindKey name sf.odata_bind_requires_slash) ne ∧
      NavUntouched sf name ne) :
    cleanNewEntity sf esc
        (Entity.mk ty ocoll props data
          (navsPre ++ NavEntry.mk name fk (NavVal.coll es) :: navsPost)) =
      some (if sf.skip_null_properties then removeNullProps dPost
        else dPost) ∧
    PairIn (formatODataBindKey name sf.odata_bind_requires_slash) name
      (JVal.arr (binds.map JVal.str)) (JVal.arr (newPayloads.map JVal.obj))
      (if sf.skip_null_properties then removeNullProps dPost else dPost) := by
  have hbne : formatODataBindKey name sf.odata_bind_requires_slash ≠ name :=
    formatODataBindKey_ne name _
  have hbindsE : binds.isEmpty = false := by
    cases hb : binds with
    | nil => exact absurd hb h5
    | cons a l => rfl
  have hnewsE : newPayloads.isEmpty = false := by
    cases hb : newPayloads with
    | nil => exact absurd hb h6
    | cons a l => rfl
  have hgetname2 : dictGet (popForeignKey fk dPre ++
      [(formatODataBindKey name sf.odata_bind_requires_slash,
        JVal.arr (binds.map JVal.str))]) name = none := by
    rw [dictGet_append, hd0b]
    simp only [dictGet, if_neg hbne]
  have e1 : cleanNewEntity sf esc
      (Entity.mk ty ocoll props data
        (navsPre ++ NavEntry.mk name fk (NavVal.coll es) :: navsPost)) =
      Option.bind
        (cleanNavs sf esc
          (navsPre ++ NavEntry.mk name fk (NavVal.coll es) :: navsPost)
          d2)
        (fun d3 =>
          some (if sf.skip_null_properties then removeNullProps d3
            else d3)) := by
    rw [show cleanNewEntity sf esc
        (Entity.mk ty ocoll props data
          (navsPre ++ NavEntry.mk name fk (NavVal.coll es) :: navsPost)) =
        Option.bind (insertScalars sf ty props data) (fun a =>
          Option.bind (dropNullPks props a) (fun b =>
            Option.bind
              (cleanNavs sf esc
                (navsPre ++ NavEntry.mk name fk (NavVal.coll es) :: navsPost)
                b)
              (fun d3 =>
                some (if sf.skip_null_properties then removeNullProps d3
                  else d3)))) from rfl]
    simp only [h1, h2, optionBind_some]
  have e2 : cleanNavs sf esc
      (navsPre ++ NavEntry.mk name fk (NavVal.coll es) :: navsPost) d2 =
      cleanNavs sf esc (NavEntry.mk name fk (NavVal.coll es) :: navsPost)
        dPre := by
    rw [cleanNavs_append, h3]
    rfl
  have e3 : cleanNavs sf esc
      (NavEntry.mk name fk (NavVal.coll es) :: navsPost) dPre =
      cleanNavs sf esc navsPost
        (popForeignKey fk dPre ++
          [(formatODataBindKey name sf.odata_bind_requires_slash,
              JVal.arr (binds.map JVal.str)),
           (name, JVal.arr (newPayloads.map JVal.obj))]) := by
    rw [cleanNavs_coll_step sf esc name fk es navsPost dPre newPayloads h4]
    congr 1
    rw [← hbinds, hbindsE, hnewsE]
    simp only [Bool.false_eq_true, if_false]
    rw [dictSet_eq_append _ _ _ hd0a, dictSet_eq_append _ _ _ hgetname2,
      List.append_assoc]
    rfl
  have emain : cleanNewEntity sf esc
      (Entity.mk ty ocoll props data
        (navsPre ++ NavEntry.mk name fk (NavVal.coll es) :: navsPost)) =
      some (if sf.skip_null_properties then removeNullProps dPost
        else dPost) := by
    rw [e1, e2, e3, h9, optionBind_some]
  have hpM : PairIn (formatODataBindKey name sf.odata_bind_requires_slash)
      name (JVal.arr (binds.map JVal.str))
      (JVal.arr (newPayloads.map JVal.obj))
      (popForeignKey fk dPre ++
        [(formatODataBindKey name sf.odata_bind_requires_slash,
            JVal.arr (binds.map JVal.str)),
         (name, JVal.arr (newPayloads.map JVal.obj))]) := by
    refine ⟨?_, ?_, List.sublist_append_right _ _⟩
    · rw [dictGet_append, hd0a]
      simp [dictGet]
    · rw [dictGet_append, hd0b]
      simp [dictGet, if_neg hbne]
  have hpPost := cleanNavs_preserves sf esc
    (formatODataBindKey name sf.odata_bind_requires_slash) name
    (JVal.arr (binds.map JVal.str)) (JVal.arr (newPayloads.map JVal.obj))
    navsPost _ dPost h10 h9 hpM
  exact ⟨emain, PairIn_skipNull sf.skip_null_properties _ _ _ _ _ rfl rfl
    hpPost⟩

/-- Witness for C3: a parent with one persisted related entity (id
`Rels(1)`) and one fresh related entity in its `Items` collection
navigation; the payload is exactly the bind array followed by the
embedded-payload array. -/
theorem spec_c3_deep_insert_collection_witness :
    cleanNewEntity ⟨false, false, false⟩ (fun _ _ => "1")
        (Entity.mk "NS.Parent" none [] []
          [NavEntry.mk "Items" none (NavVal.coll
            [Entity.mk "NS.Rel" (some "Rels") [⟨"Id", true, false⟩]
              [("Id", JVal.num 7)] [],
             Entity.mk "NS.Rel" none [] [] []])]) =
      some [("Items@odata.bind", JVal.arr [JVal.str "Rels(1)"]),
        ("Items", JVal.arr [JVal.obj []])] ∧
    PairIn "Items@odata.bind" "Items" (JVal.arr [JVal.str "Rels(1)"])
      (JVal.arr [JVal.obj []])
      [("Items@odata.bind", JVal.arr [JVal.str "Rels(1)"]),
        ("Items", JVal.arr [JVal.obj []])] :=
  spec_c3_deep_insert_collection ⟨false, false, false⟩ (fun _ _ => "1")
    "NS.Parent" none [] [] [] [] "Items" none
    [Entity.mk "NS.Rel" (some "Rels") [⟨"Id", true, false⟩]
      [("Id", JVal.num 7)] [],
     Entity.mk "NS.Rel" none [] [] []]
    [] [] []
    [("Items@odata.bind", JVal.arr [JVal.str "Rels(1)"]),
      ("Items", JVal.arr [JVal.obj []])]
    ["Rels(1)"] [[]]
    rfl rfl rfl rfl rfl (by decide) (List.cons_ne_nil _ _) rfl rfl rfl
    (fun ne h => absurd h (List.not_mem_nil ne))

end PyOData
